import Mathlib

/-!
Shallow embedding of the article-content rendering pipeline of the
`cauldron` repository (`src/article/renderer.rs`), together with theorems
about the behaviour of its Document Builder, Content Locator, Block
Classifier, Inline Formatter and per-image load state machine.

The markup tree that `scraper` hands to the renderer is modelled by the
mutually inductive types `HNode`/`HForest` (a node, and an ordered list of
sibling nodes).  Pure functions of the source are translated one-to-one;
the GTK widget tree produced by the renderer is modelled by the `Block`
type, which records exactly the data the renderer writes into each widget
(markup strings, list rows with their bullet markers, image URLs and the
presence of a "Load Image" button).  The asynchronous image loading logic
of `create_image` is modelled as an explicit event-driven state machine
(`ImageState`/`ImageEvent`/`stepImage`).
-/

mutual
/-- A node of the parsed markup tree (`scraper::Node`): a text node, an
element with tag name, attributes and children, or any other node kind
(comment, doctype, ...) which the renderer ignores. -/
inductive HNode where
  | text (s : String)
  | comment
  | elem (tag : String) (attrs : List (String × String)) (children : HForest)

inductive HForest where
  | nil
  | cons (n : HNode) (rest : HForest)
end

/-- Build a forest from a list of nodes (notation helper for examples). -/
def HForest.ofList : List HNode → HForest
  | [] => .nil
  | n :: r => .cons n (HForest.ofList r)

/-- The children of a node; non-elements have none. -/
def childrenOf : HNode → HForest
  | .elem _ _ ch => ch
  | _ => .nil

/-- One step of `html_escape::encode_text`: escape a single character. -/
def encodeChar (c : Char) : String :=
  if c = '&' then "&amp;"
  else if c = '<' then "&lt;"
  else if c = '>' then "&gt;"
  else String.singleton c

/-- `html_escape::encode_text`: escape `&`, `<`, `>` in a string
(renderer.rs line 2, used at lines 601, 620, 627). -/
def encodeText (s : String) : String :=
  String.join (s.toList.map encodeChar)

/-- `element.value().attr(name)`: look up an attribute value. -/
def lookupAttr (attrs : List (String × String)) (name : String) : Option String :=
  (attrs.find? (fun p => p.1 = name)).map (fun p => p.2)

mutual
/-- `node.text().collect::<String>()`: the flattened descendant text of a
node, with no escaping (renderer.rs lines 372, 619, 637). -/
def extractAllText : HNode → String
  | .text s => s
  | .comment => ""
  | .elem _ _ ch => extractAllTextF ch

def extractAllTextF : HForest → String
  | .nil => ""
  | .cons n rest => extractAllText n ++ extractAllTextF rest
end

mutual
/-- The body of the `for child in element.children()` loop of
`extract_text_with_formatting` (renderer.rs lines 598-644): the markup
contribution of one child node. -/
def formatNode : HNode → String
  | .text s => encodeText s
  | .comment => ""
  | .elem tag attrs ch =>
    if tag = "strong" ∨ tag = "b" then "<b>" ++ formatChildren ch ++ "</b>"
    else if tag = "em" ∨ tag = "i" then "<i>" ++ formatChildren ch ++ "</i>"
    else if tag = "code" then "<tt>" ++ encodeText (extractAllTextF ch) ++ "</tt>"
    else if tag = "a" then
      match lookupAttr attrs "href" with
      | some href =>
        "<a href=\"" ++ encodeText href ++ "\">" ++ formatChildren ch ++ "</a>"
      | none => formatChildren ch
    else extractAllTextF ch

/-- `extract_text_with_formatting` applied to the given child list
(renderer.rs lines 595-647). -/
def formatChildren : HForest → String
  | .nil => ""
  | .cons n rest => formatNode n ++ formatChildren rest
end

/-- `ArticleRenderer::extract_text_with_formatting(element)`: format the
children of an element (renderer.rs line 595). -/
def extract_text_with_formatting (e : HNode) : String :=
  formatChildren (childrenOf e)

/-- The loading status of one image widget, abstracting the widget
configurations `create_image` moves through (renderer.rs lines 451-547):
`NotRequested` = "Load Image" button shown; `Requested` = button disabled,
label "Loading...", download task running; `Decoding` = bytes received,
`bytes_to_texture` running; `Succeeded` = picture widget shown;
`Failed` = "image-missing" error icon shown. -/
inductive ImageState where
  | NotRequested
  | Requested
  | Decoding
  | Succeeded (width height : Nat)
  | Failed (reason : String)
  deriving DecidableEq, Repr

/-- The events that drive one image widget: the user clicking the load
button (renderer.rs line 468), the download future resolving with bytes
(line 485) or a transport/spawn error (lines 521, 530), and
`bytes_to_texture` succeeding (line 486) or failing (line 511). -/
inductive ImageEvent where
  | request
  | bytesReceived
  | transportFailed (reason : String)
  | decodeOk (width height : Nat)
  | decodeFailed (reason : String)
  deriving DecidableEq, Repr

/-- The transition function of the image widget, read off the callback
flow of `create_image` (renderer.rs lines 468-541).  Events that the
widget cannot produce in a given state (a click while the button is
disabled or removed, a task completion with no task running) leave the
state unchanged. -/
def stepImage : ImageState → ImageEvent → ImageState
  | .NotRequested, .request => .Requested
  | .Requested, .bytesReceived => .Decoding
  | .Requested, .transportFailed r => .Failed r
  | .Decoding, .decodeOk w h => .Succeeded w h
  | .Decoding, .decodeFailed r => .Failed r
  | s, _ => s

/-- Progress rank of an image state along the pipeline. -/
def rank : ImageState → Nat
  | .NotRequested => 0
  | .Requested => 1
  | .Decoding => 2
  | .Succeeded _ _ => 3
  | .Failed _ => 3

/-- Terminal states: the widget shows a final picture or error icon and
the load button has been removed. -/
def isTerminal : ImageState → Bool
  | .Succeeded _ _ => true
  | .Failed _ => true
  | _ => false

/-- The forward edges of the image state machine. -/
def forwardEdge : ImageState → ImageState → Bool
  | .NotRequested, .Requested => true
  | .Requested, .Decoding => true
  | .Requested, .Failed _ => true
  | .Decoding, .Succeeded _ _ => true
  | .Decoding, .Failed _ => true
  | _, _ => false

/-- `download_image_bytes` is invoked exactly when the load button is
clicked in its initial state (renderer.rs lines 477-480); no other
state/event pair starts a network fetch. -/
def startsFetch : ImageState → ImageEvent → Bool
  | .NotRequested, .request => true
  | _, _ => false

/-- The sequence of states an image widget passes through from state `s`
under a sequence of events (the state before each event, then the final
state). -/
def imageTraceFrom (s : ImageState) : List ImageEvent → List ImageState
  | [] => [s]
  | e :: rest => s :: imageTraceFrom (stepImage s e) rest

/-- The state sequence of an image widget from its initial state. -/
def imageTrace (es : List ImageEvent) : List ImageState :=
  imageTraceFrom ImageState.NotRequested es

/-- The final state of an image widget after a sequence of events. -/
def runImage (es : List ImageEvent) : ImageState :=
  es.foldl stepImage ImageState.NotRequested

mutual
/-- The data the renderer writes into one top-level widget
(`element_to_widget`, renderer.rs lines 325-341): heading level and markup
string, paragraph markup string, raw code text, blockquote child widgets,
list rows (bullet/number marker label plus item markup label,
renderer.rs lines 417-445), or image (src URL, whether a "Load Image"
button is present, and the load state). -/
inductive Block where
  | Heading (level : Nat) (inline : String)
  | Paragraph (inline : String)
  | CodeBlock (text : String)
  | Blockquote (children : BlockSeq)
  | ListW (ordered : Bool) (rows : List (String × String))
  | Image (url : String) (hasLoadButton : Bool) (state : ImageState)

/-- An ordered sequence of blocks (the children appended to a container). -/
inductive BlockSeq where
  | nil
  | cons (b : Block) (rest : BlockSeq)
end

/-- `create_image` (renderer.rs lines 451-547): read the `src` attribute
(empty string when absent), add a "Load Image" button only when the URL is
non-empty; no fetch is performed and the widget starts in its initial
configuration. -/
def create_image (attrs : List (String × String)) : Block :=
  let img_url := (lookupAttr attrs "src").getD ""
  Block.Image img_url (!img_url.isEmpty) ImageState.NotRequested

/-- The marker label of list row `i` (0-based): `"{i+1}."` for ordered
lists, a bullet glyph otherwise (renderer.rs lines 423-427). -/
def listMarker (ordered : Bool) (i : Nat) : String :=
  if ordered then toString (i + 1) ++ "." else "•"

mutual
/-- `element.select(&li_selector)` with selector `"li"`: all descendant
elements with tag `li`, in document order (renderer.rs lines 416-417).
`selTags` collects, in preorder, the elements of a subtree whose tag is in
`tags`; `selTagsF` does so over a forest of sibling subtrees. -/
def selTags (tags : List String) : HNode → List HNode
  | .text _ => []
  | .comment => []
  | .elem t a ch =>
    (if t ∈ tags then [HNode.elem t a ch] else []) ++ selTagsF tags ch

def selTagsF (tags : List String) : HForest → List HNode
  | .nil => []
  | .cons n rest => selTags tags n ++ selTagsF tags rest
end

/-- The `li` descendants of a list element, in document order. -/
def liDescendants : HNode → List HNode
  | .elem _ _ ch => selTagsF ["li"] ch
  | _ => []

/-- The row-building loop of `create_list` (renderer.rs lines 417-446):
each successive `li`, enumerated from index `i`, yields a row made of its
marker label and the formatted item content. -/
def createListRows (ordered : Bool) (i : Nat) : List HNode → List (String × String)
  | [] => []
  | li :: rest =>
    (listMarker ordered i, formatChildren (childrenOf li)) :: createListRows ordered (i + 1) rest

/-- `create_list` (renderer.rs lines 410-449): one row per `li` descendant
of the list element, enumerated from 0. -/
def create_list (ordered : Bool) (e : HNode) : List (String × String) :=
  createListRows ordered 0 (liDescendants e)

mutual
/-- `element_to_widget` (renderer.rs lines 325-341): classify one element
into a block, or `none` for any unrecognized tag. -/
def element_to_widget : HNode → Option Block
  | .text _ => none
  | .comment => none
  | .elem tag attrs ch =>
    if tag = "h1" then some (.Heading 1 (formatChildren ch))
    else if tag = "h2" then some (.Heading 2 (formatChildren ch))
    else if tag = "h3" then some (.Heading 3 (formatChildren ch))
    else if tag = "h4" then some (.Heading 4 (formatChildren ch))
    else if tag = "h5" then some (.Heading 5 (formatChildren ch))
    else if tag = "h6" then some (.Heading 6 (formatChildren ch))
    else if tag = "p" then some (.Paragraph (formatChildren ch))
    else if tag = "pre" then some (.CodeBlock (extractAllTextF ch))
    else if tag = "blockquote" then some (.Blockquote (blockquoteChildren ch))
    else if tag = "ul" then
      some (.ListW false (createListRows false 0 (selTagsF ["li"] ch)))
    else if tag = "ol" then
      some (.ListW true (createListRows true 0 (selTagsF ["li"] ch)))
    else if tag = "img" then some (create_image attrs)
    else none

/-- The child loop of `create_blockquote` (renderer.rs lines 399-405):
classify each child element, dropping non-elements and unrecognized tags. -/
def blockquoteChildren : HForest → BlockSeq
  | .nil => .nil
  | .cons n rest =>
    match element_to_widget n with
    | some b => .cons b (blockquoteChildren rest)
    | none => blockquoteChildren rest
end

mutual
/-- All image load states stored (recursively) inside one block. -/
def blockImageStates : Block → List ImageState
  | .Image _ _ s => [s]
  | .Blockquote ch => seqImageStates ch
  | _ => []

def seqImageStates : BlockSeq → List ImageState
  | .nil => []
  | .cons b rest => blockImageStates b ++ seqImageStates rest
end

/-- All image load states stored in a list of blocks. -/
def docImageStates : List Block → List ImageState
  | [] => []
  | b :: rest => blockImageStates b ++ docImageStates rest

mutual
/-- CSS selection `"<ptag> > *"` as used by `process_elements`
(renderer.rs lines 294, 305): all elements, in document (preorder) order,
whose parent element has tag `ptag`.  `parent` is the tag of the node's
parent element, `none` at the root. -/
def selChildrenOf (ptag : String) (parent : Option String) : HNode → List HNode
  | .text _ => []
  | .comment => []
  | .elem t a ch =>
    (if parent = some ptag then [HNode.elem t a ch] else []) ++
      selChildrenOfF ptag (some t) ch

def selChildrenOfF (ptag : String) (parent : Option String) : HForest → List HNode
  | .nil => []
  | .cons n rest => selChildrenOf ptag parent n ++ selChildrenOfF ptag parent rest
end

/-- The block tags recognized by the renderer: the tags of the tier-3
selector `"p, h1, h2, h3, h4, h5, h6, pre, blockquote, ul, ol, img"`
(renderer.rs line 316), which are exactly the tags `element_to_widget`
recognizes. -/
def recognizedBlockTags : List String :=
  ["p", "h1", "h2", "h3", "h4", "h5", "h6", "pre", "blockquote", "ul", "ol", "img"]

/-- Tier 1 of the Content Locator: `document.select("body > *")`. -/
def candidatesTier1 (doc : HNode) : List HNode :=
  selChildrenOf "body" none doc

/-- Tier 2 of the Content Locator: `document.select("html > *")`. -/
def candidatesTier2 (doc : HNode) : List HNode :=
  selChildrenOf "html" none doc

/-- Tier 3 of the Content Locator: every element anywhere in the document
matching a recognized block tag (renderer.rs lines 314-316). -/
def candidatesTier3 (doc : HNode) : List HNode :=
  selTags recognizedBlockTags doc

/-- `process_elements` (renderer.rs lines 293-323): classify tier-1
candidates; if no widget was appended (`found_elements` stays false), try
tier 2; if still none, append the classified tier-3 candidates.  The
result is the ordered list of widgets appended to the content box. -/
def process_elements (doc : HNode) : List Block :=
  let w1 := (candidatesTier1 doc).filterMap element_to_widget
  if w1.isEmpty then
    let w2 := (candidatesTier2 doc).filterMap element_to_widget
    if w2.isEmpty then (candidatesTier3 doc).filterMap element_to_widget
    else w2
  else w1

/-- The candidate elements whose classification results are the ones
actually appended by `process_elements`: the first tier whose candidates
classify to at least one widget (tier 3 when none does). -/
def locatorCandidates (doc : HNode) : List HNode :=
  if ((candidatesTier1 doc).filterMap element_to_widget).isEmpty then
    if ((candidatesTier2 doc).filterMap element_to_widget).isEmpty then
      candidatesTier3 doc
    else candidatesTier2 doc
  else candidatesTier1 doc

/-- Modelled from the spec's words, for comparison with the code: the
"direct list-item descendants" of a list element, i.e. its direct children
with the list-item tag. -/
def specDirectLiChildren : HNode → List HNode
  | .elem _ _ ch => specDirectLiOf ch
  | _ => []
where
  specDirectLiOf : HForest → List HNode
    | .nil => []
    | .cons (.elem t a c) rest =>
      (if t = "li" then [HNode.elem t a c] else []) ++ specDirectLiOf rest
    | .cons _ rest => specDirectLiOf rest

/-- Example document: a body wrapper whose only direct child is an
unrecognized `div`, with a recognized paragraph nested inside it. -/
def docBodyUnrecognized : HNode :=
  HNode.elem "html" [] (HForest.ofList [HNode.elem "head" [] HForest.nil,
    HNode.elem "body" [] (HForest.ofList [HNode.elem "div" []
      (HForest.ofList [HNode.elem "p" [] (HForest.ofList [HNode.text "x"])])])])

/-- Example document: an unordered list whose single item contains a
nested inner list. -/
def nestedListDoc : HNode :=
  HNode.elem "ul" [] (HForest.ofList [HNode.elem "li" [] (HForest.ofList
    [HNode.text "A",
     HNode.elem "ul" [] (HForest.ofList
       [HNode.elem "li" [] (HForest.ofList [HNode.text "B"])])])])

/-- Example document: an article with a top-level image and an image
nested inside a blockquote. -/
def imgArticleDoc : HNode :=
  HNode.elem "html" [] (HForest.ofList [HNode.elem "body" [] (HForest.ofList
    [HNode.elem "img" [("src", "http://e/x.png")] HForest.nil,
     HNode.elem "blockquote" [] (HForest.ofList
       [HNode.elem "img" [("src", "http://e/y.png")] HForest.nil])])])

lemma rank_le_stepImage (s : ImageState) (e : ImageEvent) :
    rank s ≤ rank (stepImage s e) := by
  cases s <;> cases e <;> simp [stepImage, rank]

lemma stepImage_eq_or_forward (s : ImageState) (e : ImageEvent) :
    stepImage s e = s ∨ forwardEdge s (stepImage s e) = true := by
  cases s <;> cases e <;> simp [stepImage, forwardEdge]

lemma stepImage_terminal (s : ImageState) (e : ImageEvent)
    (h : isTerminal s = true) : stepImage s e = s := by
  cases s <;> cases e <;> simp_all [stepImage, isTerminal]

lemma stepImage_eq_decoding (s : ImageState) (e : ImageEvent)
    (h : stepImage s e = ImageState.Decoding) :
    s = ImageState.Decoding ∨ e = ImageEvent.bytesReceived := by
  cases s <;> cases e <;> simp_all [stepImage]

lemma decoding_not_mem_trace (es : List ImageEvent) (s : ImageState)
    (hs : s ≠ ImageState.Decoding)
    (he : ∀ e ∈ es, e ≠ ImageEvent.bytesReceived) :
    ImageState.Decoding ∉ imageTraceFrom s es := by
  induction es generalizing s with
  | nil => simpa [imageTraceFrom] using Ne.symm hs
  | cons e rest ih =>
    simp only [imageTraceFrom, List.mem_cons]
    rintro (h | h)
    · exact hs h.symm
    · have hstep : stepImage s e ≠ ImageState.Decoding := by
        intro hd
        rcases stepImage_eq_decoding s e hd with h' | h'
        · exact hs h'
        · exact he e (List.mem_cons_self e rest) h'
      exact ih (stepImage s e) hstep (fun x hx => he x (List.mem_cons_of_mem e hx)) h

lemma stepImage_notRequested (e : ImageEvent)
    (h : e ≠ ImageEvent.request) :
    stepImage ImageState.NotRequested e = ImageState.NotRequested := by
  cases e <;> simp_all [stepImage]

lemma foldl_stepImage_no_request (es : List ImageEvent)
    (h : ImageEvent.request ∉ es) :
    es.foldl stepImage ImageState.NotRequested = ImageState.NotRequested := by
  induction es with
  | nil => rfl
  | cons e rest ih =>
    have he : e ≠ ImageEvent.request := by
      intro hc; exact h (hc ▸ List.mem_cons_self e rest)
    rw [List.foldl_cons, stepImage_notRequested e he]
    exact ih (fun hc => h (List.mem_cons_of_mem e hc))

lemma process_elements_eq_locator (d : HNode) :
    process_elements d = (locatorCandidates d).filterMap element_to_widget := by
  simp only [process_elements, locatorCandidates]
  by_cases h1 : ((candidatesTier1 d).filterMap element_to_widget).isEmpty
  · by_cases h2 : ((candidatesTier2 d).filterMap element_to_widget).isEmpty
    · simp [h1, h2]
    · simp [h1, h2]
  · simp [h1]

lemma createListRows_map_snd (ls : List HNode) (ordered : Bool) (i : Nat) :
    (createListRows ordered i ls).map Prod.snd
      = ls.map (fun li => formatChildren (childrenOf li)) := by
  induction ls generalizing i with
  | nil => rfl
  | cons li rest ih => simp [createListRows, ih]

lemma createListRows_map_fst (ls : List HNode) (ordered : Bool) (i : Nat) :
    (createListRows ordered i ls).map Prod.fst
      = (List.range ls.length).map (fun j => listMarker ordered (i + j)) := by
  induction ls generalizing i with
  | nil => rfl
  | cons li rest ih =>
    simp only [createListRows, List.map_cons, List.length_cons,
      List.range_succ_eq_map, List.map_map]
    refine congrArg₂ _ (by simp [listMarker]) ?_
    rw [ih (i + 1)]
    have harg : (fun j => listMarker ordered (i + 1 + j))
        = ((fun j => listMarker ordered (i + j)) ∘ Nat.succ) := by
      funext j
      simp only [Function.comp_apply]
      congr 1
      omega
    rw [harg]

mutual
theorem etw_images_notRequested (n : HNode) :
    ∀ b, element_to_widget n = some b →
      ∀ t ∈ blockImageStates b, t = ImageState.NotRequested := by
  cases n with
  | text s =>
    intro b hb
    exact absurd hb (by rw [element_to_widget.eq_def]; exact Option.noConfusion)
  | comment =>
    intro b hb
    exact absurd hb (by rw [element_to_widget.eq_def]; exact Option.noConfusion)
  | elem tag attrs ch =>
    intro b hb t ht
    simp only [element_to_widget.eq_def] at hb
    by_cases h1 : tag = "h1"
    · rw [if_pos h1] at hb; injection hb with hb; subst hb
      simp [blockImageStates] at ht
    rw [if_neg h1] at hb
    by_cases h2 : tag = "h2"
    · rw [if_pos h2] at hb; injection hb with hb; subst hb
      simp [blockImageStates] at ht
    rw [if_neg h2] at hb
    by_cases h3 : tag = "h3"
    · rw [if_pos h3] at hb; injection hb with hb; subst hb
      simp [blockImageStates] at ht
    rw [if_neg h3] at hb
    by_cases h4 : tag = "h4"
    · rw [if_pos h4] at hb; injection hb with hb; subst hb
      simp [blockImageStates] at ht
    rw [if_neg h4] at hb
    by_cases h5 : tag = "h5"
    · rw [if_pos h5] at hb; injection hb with hb; subst hb
      simp [blockImageStates] at ht
    rw [if_neg h5] at hb
    by_cases h6 : tag = "h6"
    · rw [if_pos h6] at hb; injection hb with hb; subst hb
      simp [blockImageStates] at ht
    rw [if_neg h6] at hb
    by_cases h7 : tag = "p"
    · rw [if_pos h7] at hb; injection hb with hb; subst hb
      simp [blockImageStates] at ht
    rw [if_neg h7] at hb
    by_cases h8 : tag = "pre"
    · rw [if_pos h8] at hb; injection hb with hb; subst hb
      simp [blockImageStates] at ht
    rw [if_neg h8] at hb
    by_cases h9 : tag = "blockquote"
    · rw [if_pos h9] at hb; injection hb with hb; subst hb
      simp only [blockImageStates] at ht
      exact bqc_images_notRequested ch t ht
    rw [if_neg h9] at hb
    by_cases h10 : tag = "ul"
    · rw [if_pos h10] at hb; injection hb with hb; subst hb
      simp [blockImageStates] at ht
    rw [if_neg h10] at hb
    by_cases h11 : tag = "ol"
    · rw [if_pos h11] at hb; injection hb with hb; subst hb
      simp [blockImageStates] at ht
    rw [if_neg h11] at hb
    by_cases h12 : tag = "img"
    · rw [if_pos h12] at hb; injection hb with hb; subst hb
      simp [create_image, blockImageStates] at ht
      exact ht
    rw [if_neg h12] at hb
    exact Option.noConfusion hb

theorem bqc_images_notRequested (f : HForest) :
    ∀ t ∈ seqImageStates (blockquoteChildren f), t = ImageState.NotRequested := by
  cases f with
  | nil => simp [blockquoteChildren, seqImageStates]
  | cons n rest =>
    intro t ht
    have ht' : t ∈ seqImageStates (match element_to_widget n with
        | some b => BlockSeq.cons b (blockquoteChildren rest)
        | none => blockquoteChildren rest) := ht
    cases h : element_to_widget n with
    | none =>
      rw [h] at ht'
      exact bqc_images_notRequested rest t ht'
    | some b =>
      rw [h] at ht'
      replace ht' : t ∈ blockImageStates b ++ seqImageStates (blockquoteChildren rest) := ht'
      rcases List.mem_append.mp ht' with h1 | h2
      · exact etw_images_notRequested n b h t h1
      · exact bqc_images_notRequested rest t h2
end

lemma docImageStates_filterMap (ls : List HNode) :
    ∀ t ∈ docImageStates (ls.filterMap element_to_widget),
      t = ImageState.NotRequested := by
  induction ls with
  | nil => simp [docImageStates]
  | cons n rest ih =>
    intro t ht
    rw [List.filterMap_cons] at ht
    cases h : element_to_widget n with
    | none =>
      rw [h] at ht
      exact ih t ht
    | some b =>
      rw [h] at ht
      simp only [docImageStates] at ht
      rcases List.mem_append.mp ht with h1 | h2
      · exact etw_images_notRequested n b h t h1
      · exact ih t h2

/-- C1: the claim states that every text node reached by the Inline
Formatter — including text flattened out of an unrecognized child element
— is passed through the escaping transform.  This theorem evaluates the
code on the failing input: a `span` child containing the text `a<b` is
flattened without escaping (the default arm of
`extract_text_with_formatting` pushes `child_element.text()` raw,
renderer.rs line 637), while a directly contained text node is escaped. -/
theorem c1_flattened_text_not_escaped :
    formatChildren (HForest.ofList [HNode.elem "span" []
        (HForest.ofList [HNode.text "a<b"])]) = "a<b" ∧
    formatChildren (HForest.ofList [HNode.text "a<b"]) = "a&lt;b" ∧
    encodeText "a<b" = "a&lt;b" ∧
    formatChildren (HForest.ofList [HNode.elem "span" []
        (HForest.ofList [HNode.text "a<b"])]) ≠ encodeText "a<b" :=
  ⟨rfl, rfl, rfl, by decide⟩

/-- C2 counterexample: in `docBodyUnrecognized` the body wrapper exists
and has a direct child (the `div`), yet none of its direct children
classifies to a widget, so `process_elements` falls through to tier 3 and
renders the nested paragraph — the candidate list is not the body's
direct children. -/
theorem c2_counterexample :
    candidatesTier1 docBodyUnrecognized
      = [HNode.elem "div" [] (HForest.ofList
          [HNode.elem "p" [] (HForest.ofList [HNode.text "x"])])] ∧
    (candidatesTier1 docBodyUnrecognized).filterMap element_to_widget = [] ∧
    process_elements docBodyUnrecognized = [Block.Paragraph "x"] ∧
    process_elements docBodyUnrecognized
      = (candidatesTier3 docBodyUnrecognized).filterMap element_to_widget ∧
    process_elements docBodyUnrecognized
      ≠ (candidatesTier1 docBodyUnrecognized).filterMap element_to_widget := by
  refine ⟨rfl, rfl, rfl, rfl, ?_⟩
  intro h
  rw [show process_elements docBodyUnrecognized = [Block.Paragraph "x"] from rfl,
    show (candidatesTier1 docBodyUnrecognized).filterMap element_to_widget = []
      from rfl] at h
  exact List.cons_ne_nil _ _ h

/-- C2 (amended): the Content Locator's fallback is driven by whether a
tier produced at least one classified widget, not by whether the wrapper
has children: if at least one direct child of the body wrapper classifies
to a block, the candidate list is exactly tier 1 and tiers 2/3 contribute
nothing; in general the widgets appended are exactly those classified
from the first productive tier. -/
theorem c2_first_productive_tier_wins (doc : HNode)
    (h : (candidatesTier1 doc).filterMap element_to_widget ≠ []) :
    locatorCandidates doc = candidatesTier1 doc ∧
    process_elements doc = (candidatesTier1 doc).filterMap element_to_widget ∧
    ∀ d : HNode, process_elements d = (locatorCandidates d).filterMap element_to_widget := by
  cases hL : (candidatesTier1 doc).filterMap element_to_widget with
  | nil => exact absurd hL h
  | cons b bs =>
    refine ⟨?_, ?_, process_elements_eq_locator⟩
    · simp [locatorCandidates, hL]
    · simp [process_elements, hL]

/-- C2 witness: a body wrapper with a classifiable paragraph child. -/
theorem c2_witness :
    ((candidatesTier1 (HNode.elem "html" [] (HForest.ofList
        [HNode.elem "body" [] (HForest.ofList
          [HNode.elem "p" [] (HForest.ofList [HNode.text "x"])])]))).filterMap
        element_to_widget ≠ []) ∧
    locatorCandidates (HNode.elem "html" [] (HForest.ofList
        [HNode.elem "body" [] (HForest.ofList
          [HNode.elem "p" [] (HForest.ofList [HNode.text "x"])])]))
      = candidatesTier1 (HNode.elem "html" [] (HForest.ofList
          [HNode.elem "body" [] (HForest.ofList
            [HNode.elem "p" [] (HForest.ofList [HNode.text "x"])])])) := by
  have hne : (candidatesTier1 (HNode.elem "html" [] (HForest.ofList
      [HNode.elem "body" [] (HForest.ofList
        [HNode.elem "p" [] (HForest.ofList [HNode.text "x"])])]))).filterMap
      element_to_widget ≠ [] := by
    rw [show (candidatesTier1 (HNode.elem "html" [] (HForest.ofList
        [HNode.elem "body" [] (HForest.ofList
          [HNode.elem "p" [] (HForest.ofList [HNode.text "x"])])]))).filterMap
        element_to_widget = [Block.Paragraph "x"] from rfl]
    exact List.cons_ne_nil _ _
  exact ⟨hne, (c2_first_productive_tier_wins _ hne).1⟩

/-- C3: the image load state machine only moves forward along
NotRequested → Requested → Decoding → Succeeded or Failed (with
Requested → Failed directly on transport failure) and never reverts;
a request-load event on a terminal state is a no-op; and if the download
never delivers bytes, Decoding is never entered — in particular a failed
fetch produces the trace NotRequested, Requested, Failed. -/
theorem c3_image_state_monotonic (s : ImageState) (e : ImageEvent)
    (es : List ImageEvent) (r : String) :
    rank s ≤ rank (stepImage s e) ∧
    (stepImage s e = s ∨ forwardEdge s (stepImage s e) = true) ∧
    (isTerminal s = true → stepImage s ImageEvent.request = s) ∧
    ((∀ x ∈ es, x ≠ ImageEvent.bytesReceived) →
      ImageState.Decoding ∉ imageTrace es) ∧
    imageTrace [ImageEvent.request, ImageEvent.transportFailed r]
      = [ImageState.NotRequested, ImageState.Requested, ImageState.Failed r] :=
  ⟨rank_le_stepImage s e, stepImage_eq_or_forward s e,
   fun h => stepImage_terminal s ImageEvent.request h,
   fun he => decoding_not_mem_trace es ImageState.NotRequested (by decide) he,
   rfl⟩

/-- C3 witness: a concrete failing fetch never enters Decoding, and a
request on the terminal Failed state is a no-op. -/
theorem c3_image_state_monotonic_witness :
    (∀ x ∈ [ImageEvent.request, ImageEvent.transportFailed "err"],
      x ≠ ImageEvent.bytesReceived) ∧
    ImageState.Decoding ∉ imageTrace [ImageEvent.request, ImageEvent.transportFailed "err"] ∧
    isTerminal (ImageState.Failed "err") = true ∧
    stepImage (ImageState.Failed "err") ImageEvent.request = ImageState.Failed "err" :=
  ⟨by decide,
   (c3_image_state_monotonic (ImageState.Failed "err") ImageEvent.request
      [ImageEvent.request, ImageEvent.transportFailed "err"] "err").2.2.2.1 (by decide),
   by decide,
   (c3_image_state_monotonic (ImageState.Failed "err") ImageEvent.request
      [] "err").2.2.1 (by decide)⟩

/-- C4 counterexample: in `nestedListDoc` the inner list's item is not a
direct list-item descendant of the outer list, yet `create_list` gives it
its own row (the `li` selector matches descendants at any depth), so the
items differ from the Inline Formatter applied to the direct list-item
children only. -/
theorem c4_counterexample :
    create_list false nestedListDoc = [("•", "AB"), ("•", "B")] ∧
    (specDirectLiChildren nestedListDoc).map
        (fun li => formatChildren (childrenOf li)) = ["AB"] ∧
    (create_list false nestedListDoc).map Prod.snd
      ≠ (specDirectLiChildren nestedListDoc).map
          (fun li => formatChildren (childrenOf li)) :=
  ⟨rfl, rfl, by decide⟩

/-- C4 (amended): the items of a List block are the Inline Formatter
applied to every `li` descendant of the list element at any depth, in
document order — items of a nested inner list do contribute their own
rows; the classifier builds `ul`/`ol` blocks through exactly this
`create_list` computation. -/
theorem c4_list_items_are_all_li_descendants (ordered : Bool) (e : HNode) :
    (create_list ordered e).map Prod.snd
      = (liDescendants e).map (fun li => formatChildren (childrenOf li)) ∧
    (∀ attrs ch, element_to_widget (HNode.elem "ul" attrs ch)
      = some (Block.ListW false (create_list false (HNode.elem "ul" attrs ch)))) ∧
    (∀ attrs ch, element_to_widget (HNode.elem "ol" attrs ch)
      = some (Block.ListW true (create_list true (HNode.elem "ol" attrs ch)))) :=
  ⟨createListRows_map_snd (liDescendants e) ordered 0,
   fun _ _ => rfl, fun _ _ => rfl⟩

/-- C5: an anchor child with an href attribute contributes a link wrapper
around the escaped href and its recursively formatted children; an anchor
without href contributes its recursively formatted children with no
wrapper, so an href-less anchor around `<i>note</i>` yields exactly the
italic span. -/
theorem c5_anchor_formatting (attrs : List (String × String)) (ch rest : HForest) :
    (∀ href, lookupAttr attrs "href" = some href →
      formatChildren (HForest.cons (HNode.elem "a" attrs ch) rest)
        = ("<a href=\"" ++ encodeText href ++ "\">" ++ formatChildren ch ++ "</a>")
            ++ formatChildren rest) ∧
    (lookupAttr attrs "href" = none →
      formatChildren (HForest.cons (HNode.elem "a" attrs ch) rest)
        = formatChildren ch ++ formatChildren rest) ∧
    formatChildren (HForest.ofList [HNode.elem "a" []
        (HForest.ofList [HNode.elem "i" [] (HForest.ofList [HNode.text "note"])])])
      = "<i>note</i>" := by
  have hcons : formatChildren (HForest.cons (HNode.elem "a" attrs ch) rest)
      = (match lookupAttr attrs "href" with
         | some href =>
           "<a href=\"" ++ encodeText href ++ "\">" ++ formatChildren ch ++ "</a>"
         | none => formatChildren ch) ++ formatChildren rest := rfl
  refine ⟨?_, ?_, rfl⟩
  · intro href h
    rw [hcons, h]
  · intro h
    rw [hcons, h]

/-- C5 witness: a concrete anchor with an href and one with none. -/
theorem c5_anchor_formatting_witness :
    lookupAttr [("href", "u")] "href" = some "u" ∧
    formatChildren (HForest.cons (HNode.elem "a" [("href", "u")]
        (HForest.ofList [HNode.text "n"])) HForest.nil)
      = ("<a href=\"" ++ encodeText "u" ++ "\">"
          ++ formatChildren (HForest.ofList [HNode.text "n"]) ++ "</a>")
          ++ formatChildren HForest.nil :=
  ⟨rfl, (c5_anchor_formatting [("href", "u")]
      (HForest.ofList [HNode.text "n"]) HForest.nil).1 "u" rfl⟩

/-- C6: the synchronous build pass performs no image fetch: every Image
block in any built document (also inside blockquotes) carries the initial
NotRequested state, and the only state/event pair that starts a fetch is
a request-load event on the initial state, which is the explicit user
action. -/
theorem c6_no_fetch_during_build (doc : HNode) (s : ImageState) (e : ImageEvent) :
    (∀ t ∈ docImageStates (process_elements doc), t = ImageState.NotRequested) ∧
    (startsFetch s e = true → s = ImageState.NotRequested ∧ e = ImageEvent.request) ∧
    stepImage ImageState.NotRequested ImageEvent.request = ImageState.Requested := by
  refine ⟨?_, ?_, rfl⟩
  · intro t ht
    rw [process_elements_eq_locator doc] at ht
    exact docImageStates_filterMap (locatorCandidates doc) t ht
  · intro h
    cases s <;> cases e <;> simp_all [startsFetch]

/-- C6 witness: an article with a top-level and a blockquote-nested
image; both are NotRequested after the build. -/
theorem c6_no_fetch_during_build_witness :
    ImageState.NotRequested ∈ docImageStates (process_elements imgArticleDoc) ∧
    ImageState.NotRequested = ImageState.NotRequested ∧
    startsFetch ImageState.NotRequested ImageEvent.request = true ∧
    (ImageState.NotRequested = ImageState.NotRequested ∧
      ImageEvent.request = ImageEvent.request) :=
  ⟨by decide,
   (c6_no_fetch_during_build imgArticleDoc ImageState.NotRequested
      ImageEvent.request).1 ImageState.NotRequested (by decide),
   rfl,
   (c6_no_fetch_during_build imgArticleDoc ImageState.NotRequested
      ImageEvent.request).2.1 rfl⟩

/-- C7: the Document Builder never fails: any candidate element with an
unrecognized tag (and any non-element node) classifies to none and is
dropped silently, and inputs yielding zero blocks produce the empty
document as a valid result. -/
theorem c7_builder_never_fails (tag : String) (attrs : List (String × String))
    (ch : HForest) (s : String) (h : tag ∉ recognizedBlockTags) :
    element_to_widget (HNode.elem tag attrs ch) = none ∧
    element_to_widget (HNode.text s) = none ∧
    element_to_widget HNode.comment = none ∧
    process_elements (HNode.elem "html" [] HForest.nil) = [] ∧
    process_elements (HNode.elem "html" [] (HForest.ofList [HNode.elem "body" []
      (HForest.ofList [HNode.elem "custom" [] HForest.nil])])) = [] := by
  refine ⟨?_, rfl, rfl, rfl, rfl⟩
  simp only [recognizedBlockTags, List.mem_cons, List.not_mem_nil, or_false] at h
  push_neg at h
  obtain ⟨hp, hh1, hh2, hh3, hh4, hh5, hh6, hpre, hbq, hul, hol, himg⟩ := h
  simp only [element_to_widget.eq_def]
  rw [if_neg hh1, if_neg hh2, if_neg hh3, if_neg hh4, if_neg hh5, if_neg hh6,
    if_neg hp, if_neg hpre, if_neg hbq, if_neg hul, if_neg hol, if_neg himg]

/-- C7 witness: a `div` is not a recognized block tag and is dropped. -/
theorem c7_builder_never_fails_witness :
    ("div" ∉ recognizedBlockTags) ∧
    element_to_widget (HNode.elem "div" [] HForest.nil) = none :=
  ⟨by decide, (c7_builder_never_fails "div" [] HForest.nil "x" (by decide)).1⟩

/-- C8: for an ordered list the display-time row markers are exactly
"1.", "2.", ..., "N." in item order (row i, 0-based, gets marker
"i+1."); for an unordered list every row gets the same bullet glyph;
the markers are a function of the index alone, derived at row-building
time. -/
theorem c8_list_markers (e : HNode) :
    (create_list true e).map Prod.fst
      = (List.range (liDescendants e).length).map (fun i => toString (i + 1) ++ ".") ∧
    (create_list false e).map Prod.fst
      = (List.range (liDescendants e).length).map (fun _ => "•") := by
  constructor
  · rw [create_list, createListRows_map_fst]
    simp [listMarker]
  · rw [create_list, createListRows_map_fst]
    simp [listMarker]

/-- C9: the Document Builder is deterministic — it is a pure function of
the parsed markup tree, consulting no external state, so two runs on
identical input produce identical block sequences. -/
theorem c9_builder_deterministic (d1 d2 : HNode) (h : d1 = d2) :
    process_elements d1 = process_elements d2 := by rw [h]

/-- C9 witness: two runs on the same concrete document. -/
theorem c9_builder_deterministic_witness :
    imgArticleDoc = imgArticleDoc ∧
    process_elements imgArticleDoc = process_elements imgArticleDoc :=
  ⟨rfl, c9_builder_deterministic imgArticleDoc imgArticleDoc rfl⟩

/-- C10: an image element whose src attribute is missing or empty gets no
"Load Image" button, so no request event can ever be delivered for it;
without a request event the state machine never leaves NotRequested and
no fetch is ever started. -/
theorem c10_empty_src_never_fetches (attrs : List (String × String))
    (es : List ImageEvent)
    (h : lookupAttr attrs "src" = none ∨ lookupAttr attrs "src" = some "")
    (hreq : ImageEvent.request ∉ es) :
    create_image attrs = Block.Image "" false ImageState.NotRequested ∧
    (∀ e, stepImage ImageState.NotRequested e ≠ ImageState.NotRequested →
      e = ImageEvent.request) ∧
    runImage es = ImageState.NotRequested ∧
    (∀ e ∈ es, startsFetch ImageState.NotRequested e = false) := by
  refine ⟨?_, ?_, foldl_stepImage_no_request es hreq, ?_⟩
  · rcases h with h | h <;> simp [create_image, h] <;> rfl
  · intro e he
    cases e <;> simp_all [stepImage]
  · intro e he
    cases e with
    | request => exact absurd he hreq
    | bytesReceived => rfl
    | transportFailed r => rfl
    | decodeOk w hgt => rfl
    | decodeFailed r => rfl

/-- C10 witness: an img with no src attribute, receiving stray task
events but no request. -/
theorem c10_empty_src_never_fetches_witness :
    (lookupAttr [("alt", "x")] "src" = none ∨
      lookupAttr [("alt", "x")] "src" = some "") ∧
    ImageEvent.request ∉ [ImageEvent.bytesReceived, ImageEvent.decodeOk 1 1] ∧
    create_image [("alt", "x")] = Block.Image "" false ImageState.NotRequested ∧
    runImage [ImageEvent.bytesReceived, ImageEvent.decodeOk 1 1]
      = ImageState.NotRequested :=
  ⟨Or.inl rfl, by decide,
   (c10_empty_src_never_fetches [("alt", "x")]
      [ImageEvent.bytesReceived, ImageEvent.decodeOk 1 1]
      (Or.inl rfl) (by decide)).1,
   (c10_empty_src_never_fetches [("alt", "x")]
      [ImageEvent.bytesReceived, ImageEvent.decodeOk 1 1]
      (Or.inl rfl) (by decide)).2.2.1⟩
